import Mathlib

/-!
Verification of `view_traces.py`, a read-only MLflow trace viewer.

The script is embedded shallowly: Python/JSON values become the inductive
type `JValue` (numbers are modelled as integers — no claim involves
floats), Python dicts become association lists with distinct keys
(`Dict`), fallible Python code becomes `Except PyErr`, and each Python
function of the script (`load_trace`, `extract_trace_info`,
`list_traces`, `view_trace_detail`) becomes a Lean function of the same
name.  `json.loads` is modelled by an executable recursive-descent
parser `parseJson` (integer numerals only; `\u` escapes unsupported —
inputs using them simply fail to parse), and `json.dumps(·, indent=8)`
by the executable serializer `json_dumps`.
-/

/-- JSON/Python values as produced by `json.load`.  `null` doubles as
Python `None`; numbers are integers; objects are association lists in
insertion order with distinct keys (Python dicts built by `json.load`
keep the last occurrence of a duplicated key, which the parser models
via `dset`). -/
inductive JValue where
  | null : JValue
  | bool : Bool → JValue
  | num : Int → JValue
  | str : String → JValue
  | arr : List JValue → JValue
  | obj : List (String × JValue) → JValue

/-- A Python dict with string keys, in insertion order. -/
abbrev Dict := List (String × JValue)

/-- Python exceptions that the script can raise or catch. -/
inductive PyErr where
  | typeError : PyErr
  | attributeError : PyErr
  | jsonDecodeError : PyErr
  | keyError : PyErr
  | indexError : PyErr
deriving DecidableEq

/-- Dict assignment `m[k] = v`: replace the value at an existing key in
place, otherwise append the new binding at the end (Python dict
insertion-order semantics). -/
def dset (m : Dict) (k : String) (v : JValue) : Dict :=
  match m with
  | [] => [(k, v)]
  | (k₁, v₁) :: rest => if k₁ = k then (k₁, v) :: rest else (k₁, v₁) :: dset rest k v

/-- Python truthiness: `None`, `False`, `0`, `""`, `[]`, and the empty
dict are falsy. -/
def py_truthy : JValue → Bool
  | .null => false
  | .bool b => b
  | .num n => n != 0
  | .str s => s ≠ ""
  | .arr xs => !xs.isEmpty
  | .obj kvs => !kvs.isEmpty

/-- Python `container.get(k, default)`: only dicts have `.get`; any
other receiver raises `AttributeError`. -/
def py_getD (v : JValue) (k : String) (dflt : JValue) : Except PyErr JValue :=
  match v with
  | .obj kvs => .ok ((kvs.lookup k).getD dflt)
  | _ => .error .attributeError

/-- Python `container.get(k)` (default `None`). -/
def py_get (v : JValue) (k : String) : Except PyErr JValue :=
  py_getD v k .null

/-- Python `len(v)`: defined for strings, lists and dicts, `TypeError`
otherwise. -/
def py_len : JValue → Except PyErr Int
  | .str s => .ok s.length
  | .arr xs => .ok xs.length
  | .obj kvs => .ok kvs.length
  | _ => .error .typeError

/-- Python `v[0]`: list head, first character of a string, key lookup on
a dict (always `KeyError` here: JSON dict keys are strings, never `0`),
`TypeError` otherwise; `IndexError` on an empty sequence. -/
def py_index0 : JValue → Except PyErr JValue
  | .arr (x :: _) => .ok x
  | .arr [] => .error .indexError
  | .str s =>
    match s.data with
    | c :: _ => .ok (.str (String.mk [c]))
    | [] => .error .indexError
  | .obj _ => .error .keyError
  | _ => .error .typeError

/-- Occurrence of `needle` as a contiguous run inside `hay`. -/
def listContainsRun (needle hay : List Char) : Bool :=
  hay.tails.any (fun t => needle.isPrefixOf t)

/-- Python `key in container` for a string `key`: dict key containment,
substring test on strings, membership on lists (the needle is a string,
and Python `str == x` is `False` for non-str `x`, so only `.str`
elements can match), `TypeError` otherwise. -/
def py_contains (container : JValue) (key : String) : Except PyErr Bool :=
  match container with
  | .obj kvs => .ok (kvs.lookup key).isSome
  | .str s => .ok (listContainsRun key.data s.data)
  | .arr xs => .ok (xs.any (fun x => match x with | .str t => t = key | _ => false))
  | _ => .error .typeError

/-- Python `container[key]` for a string `key`: dict lookup
(`KeyError` when absent); strings and lists demand integer indices, so a
string subscript raises `TypeError`. -/
def py_subscript (container : JValue) (key : String) : Except PyErr JValue :=
  match container with
  | .obj kvs =>
    match kvs.lookup key with
    | some v => .ok v
    | none => .error .keyError
  | _ => .error .typeError

/-- Python string slice `s[:n]` (by characters/code points). -/
def py_slice (s : String) (n : Nat) : String :=
  String.mk (s.data.take n)

mutual

/-- Python `repr` on JSON values (used by `str` on containers).  String
repr is modelled without escaping or quote selection: the claims only
exercise it on strings free of quotes and control characters. -/
def py_repr : JValue → String
  | .null => "None"
  | .bool true => "True"
  | .bool false => "False"
  | .num n => toString n
  | .str s => "'" ++ s ++ "'"
  | .arr xs => "[" ++ py_repr_items xs ++ "]"
  | .obj kvs => "\x7b" ++ py_repr_entries kvs ++ "\x7d"

/-- Comma-separated reprs of list elements. -/
def py_repr_items : List JValue → String
  | [] => ""
  | [x] => py_repr x
  | x :: y :: rest => py_repr x ++ ", " ++ py_repr_items (y :: rest)

/-- Comma-separated reprs of dict entries. -/
def py_repr_entries : List (String × JValue) → String
  | [] => ""
  | [(k, v)] => "'" ++ k ++ "': " ++ py_repr v
  | (k, v) :: e :: rest => "'" ++ k ++ "': " ++ py_repr v ++ ", " ++ py_repr_entries (e :: rest)

end

/-- Python `str` on JSON values: identity on strings, `repr`-based
otherwise (so `str(None) = "None"`, `str(2) = "2"`). -/
def py_str : JValue → String
  | .str s => s
  | v => py_repr v

/-! JSON parsing (`json.loads`). -/

/-- Skip JSON whitespace. -/
def skipWs : List Char → List Char
  | c :: cs => if c = ' ' ∨ c = '\n' ∨ c = '\t' ∨ c = '\r' then skipWs cs else c :: cs
  | [] => []

/-- Decode a single-character JSON string escape (`\u` unsupported:
such inputs fail to parse). -/
def escChar (e : Char) : Option Char :=
  if e = '"' ∨ e = '\\' ∨ e = '/' then some e
  else if e = 'n' then some '\n'
  else if e = 't' then some '\t'
  else if e = 'r' then some '\r'
  else none

/-- Parse the body of a JSON string after the opening quote, returning
the decoded characters and the input after the closing quote. -/
def parseStrChars : List Char → Option (List Char × List Char)
  | [] => none
  | '"' :: rest => some ([], rest)
  | '\\' :: e :: rest =>
    match escChar e with
    | none => none
    | some c =>
      match parseStrChars rest with
      | some (cs, r) => some (c :: cs, r)
      | none => none
  | c :: rest =>
    if c = '\\' then none
    else
      match parseStrChars rest with
      | some (cs, r) => some (c :: cs, r)
      | none => none

/-- Digits to the natural number they denote. -/
def digitsToNat (ds : List Char) : Nat :=
  ds.foldl (fun acc c => acc * 10 + (c.toNat - '0'.toNat)) 0

/-- Parse an integer numeral (optional minus sign, one or more digits). -/
def parseIntNum (cs : List Char) : Option (Int × List Char) :=
  match cs with
  | '-' :: rest =>
    match rest.span (·.isDigit) with
    | ([], _) => none
    | (ds, r) => some (-(digitsToNat ds : Int), r)
  | _ =>
    match cs.span (·.isDigit) with
    | ([], _) => none
    | (ds, r) => some ((digitsToNat ds : Int), r)

mutual

/-- Fuel-indexed recursive-descent parser for one JSON value. -/
def parseVal : Nat → List Char → Option (JValue × List Char)
  | 0, _ => none
  | fuel + 1, cs =>
    match skipWs cs with
    | '"' :: r =>
      match parseStrChars r with
      | some (body, r₁) => some (.str (String.mk body), r₁)
      | none => none
    | '[' :: r =>
      match skipWs r with
      | ']' :: r₁ => some (.arr [], r₁)
      | r₁ => parseArrItems fuel r₁ []
    | '\x7b' :: r =>
      match skipWs r with
      | '\x7d' :: r₁ => some (.obj [], r₁)
      | r₁ => parseObjItems fuel r₁ []
    | other =>
      if "null".data.isPrefixOf other then some (.null, other.drop 4)
      else if "true".data.isPrefixOf other then some (.bool true, other.drop 4)
      else if "false".data.isPrefixOf other then some (.bool false, other.drop 5)
      else parseIntNum other |>.map (fun (n, r) => (.num n, r))

/-- Parse the remaining elements of a non-empty JSON array. -/
def parseArrItems : Nat → List Char → List JValue → Option (JValue × List Char)
  | 0, _, _ => none
  | fuel + 1, cs, acc =>
    match parseVal fuel cs with
    | none => none
    | some (v, r) =>
      match skipWs r with
      | ',' :: r₁ => parseArrItems fuel r₁ (acc ++ [v])
      | ']' :: r₁ => some (.arr (acc ++ [v]), r₁)
      | _ => none

/-- Parse the remaining entries of a non-empty JSON object; duplicate
keys are collapsed with `dset` (last occurrence wins, like Python). -/
def parseObjItems : Nat → List Char → Dict → Option (JValue × List Char)
  | 0, _, _ => none
  | fuel + 1, cs, acc =>
    match skipWs cs with
    | '"' :: r =>
      match parseStrChars r with
      | none => none
      | some (kcs, r₁) =>
        match skipWs r₁ with
        | ':' :: r₂ =>
          match parseVal fuel r₂ with
          | none => none
          | some (v, r₃) =>
            match skipWs r₃ with
            | ',' :: r₄ => parseObjItems fuel r₄ (dset acc (String.mk kcs) v)
            | '\x7d' :: r₄ => some (.obj (dset acc (String.mk kcs) v), r₄)
            | _ => none
        | _ => none
    | _ => none

end

/-- Parse a complete JSON document (trailing non-whitespace rejects, as
`json.loads` does). -/
def parseJson (s : String) : Option JValue :=
  match parseVal (s.data.length + 1) s.data with
  | some (v, rest) => if skipWs rest = [] then some v else none
  | none => none

/-- Python `json.loads(v)`: parses string input, raising
`json.JSONDecodeError` on malformed text; any non-string input raises
`TypeError` ("the JSON object must be str, bytes or bytearray"). -/
def json_loads_py : JValue → Except PyErr JValue
  | .str s =>
    match parseJson s with
    | some v => .ok v
    | none => .error .jsonDecodeError
  | _ => .error .typeError

/-! The trace directory model and `load_trace`. -/

/-- One entry of the trace root directory: its name, whether it is a
directory, and the contents of its `artifacts/traces.json` file when
that file exists. -/
structure DirEntry where
  name : String
  isDir : Bool
  artifact : Option String

/-- `load_trace`: parse `artifacts/traces.json` when it exists
(`json.load` raises `JSONDecodeError` on malformed contents), otherwise
return the empty dict `{}`. -/
def load_trace (t : DirEntry) : Except PyErr JValue :=
  match t.artifact with
  | some s =>
    match parseJson s with
    | some v => .ok v
    | none => .error .jsonDecodeError
  | none => .ok (.obj [])

/-! `extract_trace_info`. -/

/-- Exceptions caught by `except (json.JSONDecodeError, AttributeError)`. -/
def catchable : PyErr → Bool
  | .jsonDecodeError => true
  | .attributeError => true
  | _ => false

/-- The `try/except (json.JSONDecodeError, AttributeError): pass` wrapper
around a span-attribute extraction step.  Returning the pre-`try` dict on
a caught exception is faithful because every raise point in either `try`
body precedes its first assignment into `info` (see the body
definitions). -/
def py_catch (info : Dict) (r : Except PyErr Dict) : Except PyErr Dict :=
  match r with
  | .ok i => .ok i
  | .error e => if catchable e then .ok info else .error e

/-- Body of the `try` for `"mlflow.spanInputs"`: the second JSON decode
and the `kwargs`/`extra_info` field extraction.  Raise points
(`json.loads`, `.get` on a non-dict) all occur before any assignment. -/
def span_inputs_body (info : Dict) (raw : JValue) : Except PyErr Dict :=
  match json_loads_py raw with
  | .error e => .error e
  | .ok data =>
    match py_getD data "kwargs" (.obj []) with
    | .error e => .error e
    | .ok kwargs =>
      match py_get kwargs "index" with
      | .error e => .error e
      | .ok idx =>
        let info := dset info "index" idx
        match py_get kwargs "data_source" with
        | .error e => .error e
        | .ok ds =>
          let info := dset info "data_source" ds
          match py_getD kwargs "extra_info" (.obj []) with
          | .error e => .error e
          | .ok extra =>
            match extra with
            | .obj e => .ok (dset info "sample_index" ((e.lookup "index").getD .null))
            | _ => .ok info

/-- Body of the `try` for `"mlflow.spanOutputs"`: decode, read
`token_ids`, and set `output_tokens` to its length when it is a list and
to `None` otherwise (`len(token_ids) if isinstance(token_ids, list) else
None`). -/
def span_outputs_body (info : Dict) (raw : JValue) : Except PyErr Dict :=
  match json_loads_py raw with
  | .error e => .error e
  | .ok data =>
    match py_getD data "token_ids" (.arr []) with
    | .error e => .error e
    | .ok token_ids =>
      match token_ids with
      | .arr xs => .ok (dset info "output_tokens" (.num xs.length))
      | _ => .ok (dset info "output_tokens" .null)

/-- The `for key in ["mlflow.spanInputs", "mlflow.spanOutputs"]` loop of
`extract_trace_info`: guard with `key in attributes`, subscript, and run
the guarded body under the local `except` clause. -/
def extract_span_fields (info : Dict) (attributes : JValue) : Except PyErr Dict :=
  match py_contains attributes "mlflow.spanInputs" with
  | .error e => .error e
  | .ok hasIn =>
    let step₁ : Except PyErr Dict :=
      if hasIn then
        py_catch info
          (match py_subscript attributes "mlflow.spanInputs" with
           | .error e => .error e
           | .ok raw => span_inputs_body info raw)
      else .ok info
    match step₁ with
    | .error e => .error e
    | .ok info =>
      match py_contains attributes "mlflow.spanOutputs" with
      | .error e => .error e
      | .ok hasOut =>
        if hasOut then
          py_catch info
            (match py_subscript attributes "mlflow.spanOutputs" with
             | .error e => .error e
             | .ok raw => span_outputs_body info raw)
        else .ok info

/-- `extract_trace_info`: empty summary for a falsy record, otherwise
the header dict (`trace_id`, `status.code`, span count) followed, when
spans exist, by the first span's attribute extraction. -/
def extract_trace_info (trace_data : JValue) : Except PyErr Dict :=
  if py_truthy trace_data = false then .ok []
  else
    match py_get trace_data "trace_id" with
    | .error e => .error e
    | .ok tid =>
      match py_getD trace_data "status" (.obj []) with
      | .error e => .error e
      | .ok statusV =>
        match py_get statusV "code" with
        | .error e => .error e
        | .ok code =>
          match py_getD trace_data "spans" (.arr []) with
          | .error e => .error e
          | .ok spansV =>
            match py_len spansV with
            | .error e => .error e
            | .ok n =>
              let info : Dict := [("trace_id", tid), ("status", code), ("spans", .num n)]
              match py_getD trace_data "spans" (.arr []) with
              | .error e => .error e
              | .ok spans =>
                if py_truthy spans then
                  match py_index0 spans with
                  | .error e => .error e
                  | .ok first =>
                    match py_getD first "attributes" (.obj []) with
                    | .error e => .error e
                    | .ok attributes => extract_span_fields info attributes
                else .ok info

/-! `list_traces`. -/

/-- The loop guard `if limit and len(traces) >= limit: break`: `limit`
is truthy when it is neither `None` nor `0`. -/
def limit_break (limit : Option Int) (collected : Nat) : Bool :=
  match limit with
  | none => false
  | some n => if n = 0 then false else decide ((collected : Int) ≥ n)

/-- One filter comparison `str(info.get(k)) == v`. -/
def filter_matches (info : Dict) (kv : String × String) : Bool :=
  py_str ((info.lookup kv.1).getD .null) == kv.2

/-- The accumulation loop of `list_traces` over the sorted trace
folders. -/
def list_go (filters : List (String × String)) (limit : Option Int) :
    List DirEntry → List Dict → Except PyErr (List Dict)
  | [], acc => .ok acc
  | d :: rest, acc =>
    if limit_break limit acc.length then .ok acc
    else
      match load_trace d with
      | .error e => .error e
      | .ok td =>
        match extract_trace_info td with
        | .error e => .error e
        | .ok info =>
          match info with
          | [] => list_go filters limit rest acc
          | _ =>
            let keep :=
              if filters.isEmpty then true
              else filters.all (filter_matches info)
            if keep then
              list_go filters limit rest (acc ++ [dset info "path" (.str d.name)])
            else list_go filters limit rest acc

/-- Lexicographic code-point comparison of character lists: exactly
Python's `<=` on strings. -/
def charListLe : List Char → List Char → Bool
  | a :: as, b :: bs => if a < b then true else if b < a then false else charListLe as bs
  | [], _ => true
  | _ :: _, [] => false

/-- Python string `a <= b`. -/
def py_str_le (a b : String) : Bool :=
  charListLe a.data b.data

/-- Python `s.startswith(pre)` (by characters). -/
def py_startswith (s pre : String) : Bool :=
  pre.data.isPrefixOf s.data

/-- Name order on directory entries, the order `sorted` uses on sibling
`Path`s (their final names). -/
def nameLe (a b : DirEntry) : Prop :=
  py_str_le a.name b.name = true

instance : DecidableRel nameLe := fun a b =>
  inferInstanceAs (Decidable (py_str_le a.name b.name = true))

/-- Candidate enumeration: subdirectories whose name starts with
`"tr-"`, sorted ascending by name.  Python's `sorted` is stable, as is
`insertionSort`; over the total preorder `nameLe` the two stable sorts
agree. -/
def trace_folders (entries : List DirEntry) : List DirEntry :=
  List.insertionSort nameLe (entries.filter (fun d => d.isDir && py_startswith d.name "tr-"))

/-- `list_traces`: enumerate, load, summarize, filter, and accumulate up
to `limit` summaries.  The directory is modelled as the list of its
entries; `str(trace_path)` is modelled by the folder name. -/
def list_traces (entries : List DirEntry) (filters : List (String × String))
    (limit : Option Int) : Except PyErr (List Dict) :=
  list_go filters limit (trace_folders entries) []

/-! `view_trace_detail` and `json.dumps(·, indent=8)`. -/

/-- Escape one character for a JSON string literal as `json.dumps`
does (basic-multilingual-plane scope; non-ASCII escapes are modelled
only for code points below `0x20`, which is all the claims exercise). -/
def dumpsEscape (c : Char) : String :=
  if c = '"' then "\\\""
  else if c = '\\' then "\\\\"
  else if c = '\n' then "\\n"
  else if c = '\t' then "\\t"
  else if c = '\r' then "\\r"
  else if c.toNat < 32 then
    "\\u00" ++ String.mk [Nat.digitChar (c.toNat / 16), Nat.digitChar (c.toNat % 16)]
  else String.mk [c]

/-- Serialize a string as a JSON string literal. -/
def dumpsStr (s : String) : String :=
  "\"" ++ String.join (s.data.map dumpsEscape) ++ "\""

/-- An indentation run of `8 * level` spaces (`indent=8`). -/
def dumpsIndent (level : Nat) : String :=
  String.mk (List.replicate (8 * level) ' ')

/-- Serializer for `json.dumps(v, indent=8)` at a nesting level: items
of a non-empty container sit on their own lines at the deeper indent,
joined by `",\n"`, with the closing bracket back at the outer indent.
Fuel-indexed for structural recursion; any fuel at least the nesting
depth of the value gives the real answer (the fuel-exhausted `""` is
unreachable from `json_dumps`, whose fuel is `sizeOf`). -/
def dumpsVal : Nat → Nat → JValue → String
  | _, _, .null => "null"
  | _, _, .bool true => "true"
  | _, _, .bool false => "false"
  | _, _, .num n => toString n
  | _, _, .str s => dumpsStr s
  | _, _, .arr [] => "[]"
  | 0, _, .arr (_ :: _) => ""
  | fuel + 1, level, .arr (x :: xs) =>
    "[\n" ++
      String.intercalate ",\n"
        ((x :: xs).map (fun y => dumpsIndent (level + 1) ++ dumpsVal fuel (level + 1) y)) ++
      "\n" ++ dumpsIndent level ++ "]"
  | _, _, .obj [] => "\x7b\x7d"
  | 0, _, .obj (_ :: _) => ""
  | fuel + 1, level, .obj (e :: es) =>
    "\x7b\n" ++
      String.intercalate ",\n"
        ((e :: es).map (fun f =>
          dumpsIndent (level + 1) ++ dumpsStr f.1 ++ ": " ++ dumpsVal fuel (level + 1) f.2)) ++
      "\n" ++ dumpsIndent level ++ "\x7d"

mutual

/-- Nesting depth of a JSON value (containers add one level). -/
def jdepth : JValue → Nat
  | .arr xs => 1 + jdepthItems xs
  | .obj es => 1 + jdepthEntries es
  | _ => 1

/-- Greatest depth among array items. -/
def jdepthItems : List JValue → Nat
  | [] => 0
  | x :: xs => max (jdepth x) (jdepthItems xs)

/-- Greatest depth among object entry values. -/
def jdepthEntries : List (String × JValue) → Nat
  | [] => 0
  | (_, v) :: es => max (jdepth v) (jdepthEntries es)

end

/-- Python `json.dumps(v, indent=8)`: run the serializer with fuel equal
to the value's nesting depth, which every recursive call stays under. -/
def json_dumps (v : JValue) : String :=
  dumpsVal (jdepth v) 0 v

/-- The per-span body of the detail loop: the header line
`"\n  [i] name"`, then the `Inputs:` line when `"mlflow.spanInputs"` is
present and its guarded rendering succeeds (the bare `except: pass`
swallows every exception), then likewise for `Outputs:`. -/
def span_detail_lines (i : Nat) (span : JValue) : Except PyErr (List String) :=
  match py_get span "name" with
  | .error e => .error e
  | .ok nm =>
    let line₁ := "\n  [" ++ toString i ++ "] " ++ py_str nm
    match py_getD span "attributes" (.obj []) with
    | .error e => .error e
    | .ok attributes =>
      match py_contains attributes "mlflow.spanInputs" with
      | .error e => .error e
      | .ok hasIn =>
        let inLines :=
          if hasIn then
            match py_subscript attributes "mlflow.spanInputs" with
            | .error _ => []
            | .ok raw =>
              match json_loads_py raw with
              | .error _ => []
              | .ok inputs =>
                ["      Inputs: " ++ py_slice (json_dumps inputs) 500 ++ "..."]
          else []
        match py_contains attributes "mlflow.spanOutputs" with
        | .error e => .error e
        | .ok hasOut =>
          let outLines :=
            if hasOut then
              match py_subscript attributes "mlflow.spanOutputs" with
              | .error _ => []
              | .ok raw =>
                match json_loads_py raw with
                | .error _ => []
                | .ok outputs =>
                  ["      Outputs: " ++ py_slice (json_dumps outputs) 500 ++ "..."]
            else []
          .ok (line₁ :: (inLines ++ outLines))

/-- The `for i, span in enumerate(spans, 1)` loop of the detail view. -/
def detail_loop (i : Nat) : List JValue → Except PyErr (List String)
  | [] => .ok []
  | sp :: rest =>
    match span_detail_lines i sp with
    | .error e => .error e
    | .ok ls =>
      match detail_loop (i + 1) rest with
      | .error e => .error e
      | .ok more => .ok (ls ++ more)

/-- Python iteration over a value (`for x in v`): lists yield elements,
strings their characters, dicts their keys; anything else raises
`TypeError`. -/
def py_iter_elems : JValue → Except PyErr (List JValue)
  | .arr xs => .ok xs
  | .str s => .ok (s.data.map (fun c => .str (String.mk [c])))
  | .obj kvs => .ok (kvs.map (fun kv => .str kv.1))
  | _ => .error .typeError

/-- `view_trace_detail`: load the trace, print `"No trace data found"`
for a falsy record, otherwise the header lines followed by the span
loop.  Each `print(...)` call becomes one string of the result. -/
def view_trace_detail (t : DirEntry) : Except PyErr (List String) :=
  match load_trace t with
  | .error e => .error e
  | .ok trace_data =>
    if py_truthy trace_data = false then .ok ["No trace data found"]
    else
      match py_get trace_data "trace_id" with
      | .error e => .error e
      | .ok tid =>
        match py_getD trace_data "status" (.obj []) with
        | .error e => .error e
        | .ok statusV =>
          match py_get statusV "code" with
          | .error e => .error e
          | .ok code =>
            match py_getD trace_data "spans" (.arr []) with
            | .error e => .error e
            | .ok spansV =>
              match py_len spansV with
              | .error e => .error e
              | .ok n =>
                let header := ["Trace ID: " ++ py_str tid, "Status: " ++ py_str code,
                  "\nSpans (" ++ toString n ++ "):"]
                match py_getD trace_data "spans" (.arr []) with
                | .error e => .error e
                | .ok spans =>
                  match py_iter_elems spans with
                  | .error e => .error e
                  | .ok elems =>
                    match detail_loop 1 elems with
                    | .error e => .error e
                    | .ok spanLines => .ok (header ++ spanLines)

/-- The `"path"` entry of a summary, as the string Python would show
(`str(trace_path)`, modelled by the folder name). -/
def path_name (s : Dict) : String :=
  py_str ((s.lookup "path").getD .null)

/-! Helper lemmas about dict assignment. -/

/-- Lookup past a head entry with a different key. -/
theorem lookup_cons_ne (k k₁ : String) (v₁ : JValue) (rest : Dict) (h : k ≠ k₁) :
    ((k₁, v₁) :: rest : Dict).lookup k = rest.lookup k := by
  simp only [List.lookup, beq_eq_false_iff_ne.mpr h]

/-- Lookup at the head entry's key. -/
theorem lookup_cons_eq (k : String) (v₁ : JValue) (rest : Dict) :
    ((k, v₁) :: rest : Dict).lookup k = some v₁ := by
  simp only [List.lookup, beq_self_eq_true]

/-- Assigning a key makes its lookup return the new value. -/
theorem lookup_dset_self (m : Dict) (k : String) (v : JValue) :
    (dset m k v).lookup k = some v := by
  induction m with
  | nil => simp [dset, lookup_cons_eq]
  | cons e rest ih =>
    obtain ⟨k₁, v₁⟩ := e
    by_cases h : k₁ = k
    · subst h
      simp [dset, lookup_cons_eq]
    · rw [dset]
      simp only [if_neg h]
      rw [lookup_cons_ne _ _ _ _ (Ne.symm h), ih]

/-- Assigning one key leaves lookups of other keys unchanged. -/
theorem lookup_dset_ne (m : Dict) (k k₂ : String) (v : JValue) (h : k₂ ≠ k) :
    (dset m k v).lookup k₂ = m.lookup k₂ := by
  induction m with
  | nil => simp [dset, lookup_cons_ne _ _ _ _ h]
  | cons e rest ih =>
    obtain ⟨k₁, v₁⟩ := e
    by_cases hk : k₁ = k
    · subst hk
      rw [dset, if_pos rfl]
      rw [lookup_cons_ne _ _ _ _ h, lookup_cons_ne _ _ _ _ h]
    · rw [dset]
      simp only [if_neg hk]
      by_cases hk₂ : k₂ = k₁
      · subst hk₂
        rw [lookup_cons_eq, lookup_cons_eq]
      · rw [lookup_cons_ne _ _ _ _ hk₂, lookup_cons_ne _ _ _ _ hk₂, ih]

/-! Evaluation lemmas for `extract_trace_info` on well-shaped records. -/

/-- On a non-empty dict record with a dict-or-absent status, a span list,
and a first span that is a dict with a dict attribute mapping,
`extract_trace_info` reduces to the header dict fed through the
span-attribute loop. -/
theorem extract_on_first_span (td st sp : Dict) (more : List JValue) (attrs : Dict)
    (htd : td ≠ [])
    (hst : td.lookup "status" = some (.obj st))
    (hsp : td.lookup "spans" = some (.arr (.obj sp :: more)))
    (hat : sp.lookup "attributes" = some (.obj attrs)) :
    extract_trace_info (.obj td) =
      extract_span_fields
        [("trace_id", (td.lookup "trace_id").getD .null),
         ("status", (st.lookup "code").getD .null),
         ("spans", .num ((more.length + 1 : Nat) : Int))] (.obj attrs) := by
  simp [extract_trace_info, py_truthy, py_get, py_getD, py_len, py_index0, hst, hsp, htd, hat]

/-- When the decoded `spanInputs` payload is a dict whose `kwargs` slot
holds a dict, the `try` body succeeds and performs the three
assignments (`sample_index` only when `extra_info` is a dict, the
absent-key default `{}` included). -/
theorem span_inputs_body_ok (info : Dict) (s : String) (dd kw : Dict)
    (hparse : parseJson s = some (.obj dd))
    (hkw : (dd.lookup "kwargs").getD (.obj []) = .obj kw) :
    span_inputs_body info (.str s) =
      .ok (match (kw.lookup "extra_info").getD (.obj []) with
           | .obj ex =>
             dset (dset (dset info "index" ((kw.lookup "index").getD .null))
               "data_source" ((kw.lookup "data_source").getD .null))
               "sample_index" ((ex.lookup "index").getD .null)
           | _ =>
             dset (dset info "index" ((kw.lookup "index").getD .null))
               "data_source" ((kw.lookup "data_source").getD .null)) := by
  rcases h : (kw.lookup "extra_info").getD (.obj []) with _ | b | n | t | xs | ex <;>
    simp [span_inputs_body, json_loads_py, hparse, py_getD, py_get, hkw, h]

/-- The guarded `spanInputs` step never fails on a string attribute
value: decode or shape errors (malformed JSON, a payload that is not an
object, a non-object `kwargs` slot) are caught, leaving the dict
unchanged, and only the three input-derived keys can change. -/
theorem span_inputs_step (info : Dict) (s : String) :
    ∃ i₁, py_catch info (span_inputs_body info (.str s)) = .ok i₁ ∧
      (parseJson s = none → i₁ = info) ∧
      (∀ v, parseJson s = some v → (∀ o, v ≠ JValue.obj o) → i₁ = info) ∧
      (∀ o, parseJson s = some (.obj o) →
        (∀ kw, (o.lookup "kwargs").getD (.obj []) ≠ .obj kw) → i₁ = info) ∧
      (∀ k, k ≠ "index" → k ≠ "data_source" → k ≠ "sample_index" →
        i₁.lookup k = info.lookup k) := by
  cases hp : parseJson s with
  | none =>
    exact ⟨info, by simp [py_catch, span_inputs_body, json_loads_py, hp, catchable],
      fun _ => rfl, fun _ _ _ => rfl, fun _ _ _ => rfl, fun k _ _ _ => rfl⟩
  | some d =>
    cases d with
    | null =>
      exact ⟨info,
        by simp [py_catch, span_inputs_body, json_loads_py, hp, py_getD, catchable],
        fun h => by simp [hp] at h, fun _ _ _ => rfl, fun _ _ _ => rfl,
        fun k _ _ _ => rfl⟩
    | bool b =>
      exact ⟨info,
        by simp [py_catch, span_inputs_body, json_loads_py, hp, py_getD, catchable],
        fun h => by simp [hp] at h, fun _ _ _ => rfl, fun _ _ _ => rfl,
        fun k _ _ _ => rfl⟩
    | num n =>
      exact ⟨info,
        by simp [py_catch, span_inputs_body, json_loads_py, hp, py_getD, catchable],
        fun h => by simp [hp] at h, fun _ _ _ => rfl, fun _ _ _ => rfl,
        fun k _ _ _ => rfl⟩
    | str t =>
      exact ⟨info,
        by simp [py_catch, span_inputs_body, json_loads_py, hp, py_getD, catchable],
        fun h => by simp [hp] at h, fun _ _ _ => rfl, fun _ _ _ => rfl,
        fun k _ _ _ => rfl⟩
    | arr xs =>
      exact ⟨info,
        by simp [py_catch, span_inputs_body, json_loads_py, hp, py_getD, catchable],
        fun h => by simp [hp] at h, fun _ _ _ => rfl, fun _ _ _ => rfl,
        fun k _ _ _ => rfl⟩
    | obj dd =>
      rcases hkw : (dd.lookup "kwargs").getD (.obj []) with _ | b | n | t | xs | kw
      · exact ⟨info,
          by simp [py_catch, span_inputs_body, json_loads_py, hp, py_getD, py_get, hkw,
            catchable],
          fun h => by simp [hp] at h, fun _ _ _ => rfl, fun _ _ _ => rfl,
          fun k _ _ _ => rfl⟩
      · exact ⟨info,
          by simp [py_catch, span_inputs_body, json_loads_py, hp, py_getD, py_get, hkw,
            catchable],
          fun h => by simp [hp] at h, fun _ _ _ => rfl, fun _ _ _ => rfl,
          fun k _ _ _ => rfl⟩
      · exact ⟨info,
          by simp [py_catch, span_inputs_body, json_loads_py, hp, py_getD, py_get, hkw,
            catchable],
          fun h => by simp [hp] at h, fun _ _ _ => rfl, fun _ _ _ => rfl,
          fun k _ _ _ => rfl⟩
      · exact ⟨info,
          by simp [py_catch, span_inputs_body, json_loads_py, hp, py_getD, py_get, hkw,
            catchable],
          fun h => by simp [hp] at h, fun _ _ _ => rfl, fun _ _ _ => rfl,
          fun k _ _ _ => rfl⟩
      · exact ⟨info,
          by simp [py_catch, span_inputs_body, json_loads_py, hp, py_getD, py_get, hkw,
            catchable],
          fun h => by simp [hp] at h, fun _ _ _ => rfl, fun _ _ _ => rfl,
          fun k _ _ _ => rfl⟩
      · rcases hx : (kw.lookup "extra_info").getD (.obj []) with _ | b | n | t | xs | ex
        · exact ⟨_, by rw [span_inputs_body_ok info s dd kw hp hkw, hx]; rfl,
            fun h => by simp [hp] at h,
            fun v hv hne => by cases hv; exact absurd rfl (hne dd),
            fun o ho hkne => by cases ho; exact absurd hkw (hkne kw),
            fun k h₁ h₂ h₃ => by rw [lookup_dset_ne _ _ _ _ h₂, lookup_dset_ne _ _ _ _ h₁]⟩
        · exact ⟨_, by rw [span_inputs_body_ok info s dd kw hp hkw, hx]; rfl,
            fun h => by simp [hp] at h,
            fun v hv hne => by cases hv; exact absurd rfl (hne dd),
            fun o ho hkne => by cases ho; exact absurd hkw (hkne kw),
            fun k h₁ h₂ h₃ => by rw [lookup_dset_ne _ _ _ _ h₂, lookup_dset_ne _ _ _ _ h₁]⟩
        · exact ⟨_, by rw [span_inputs_body_ok info s dd kw hp hkw, hx]; rfl,
            fun h => by simp [hp] at h,
            fun v hv hne => by cases hv; exact absurd rfl (hne dd),
            fun o ho hkne => by cases ho; exact absurd hkw (hkne kw),
            fun k h₁ h₂ h₃ => by rw [lookup_dset_ne _ _ _ _ h₂, lookup_dset_ne _ _ _ _ h₁]⟩
        · exact ⟨_, by rw [span_inputs_body_ok info s dd kw hp hkw, hx]; rfl,
            fun h => by simp [hp] at h,
            fun v hv hne => by cases hv; exact absurd rfl (hne dd),
            fun o ho hkne => by cases ho; exact absurd hkw (hkne kw),
            fun k h₁ h₂ h₃ => by rw [lookup_dset_ne _ _ _ _ h₂, lookup_dset_ne _ _ _ _ h₁]⟩
        · exact ⟨_, by rw [span_inputs_body_ok info s dd kw hp hkw, hx]; rfl,
            fun h => by simp [hp] at h,
            fun v hv hne => by cases hv; exact absurd rfl (hne dd),
            fun o ho hkne => by cases ho; exact absurd hkw (hkne kw),
            fun k h₁ h₂ h₃ => by rw [lookup_dset_ne _ _ _ _ h₂, lookup_dset_ne _ _ _ _ h₁]⟩
        · exact ⟨_, by rw [span_inputs_body_ok info s dd kw hp hkw, hx]; rfl,
            fun h => by simp [hp] at h,
            fun v hv hne => by cases hv; exact absurd rfl (hne dd),
            fun o ho hkne => by cases ho; exact absurd hkw (hkne kw),
            fun k h₁ h₂ h₃ => by
              rw [lookup_dset_ne _ _ _ _ h₃, lookup_dset_ne _ _ _ _ h₂,
                lookup_dset_ne _ _ _ _ h₁]⟩

/-- The guarded `spanOutputs` step never fails on a string attribute
value: a decode failure (malformed JSON, or a payload that is not an
object) leaves the dict unchanged, and only the `output_tokens` key can
change. -/
theorem span_outputs_step (info : Dict) (s₂ : String) :
    ∃ i₂, py_catch info (span_outputs_body info (.str s₂)) = .ok i₂ ∧
      (parseJson s₂ = none → i₂ = info) ∧
      (∀ w, parseJson s₂ = some w → (∀ q, w ≠ JValue.obj q) → i₂ = info) ∧
      (∀ k, k ≠ "output_tokens" → i₂.lookup k = info.lookup k) := by
  cases hp : parseJson s₂ with
  | none =>
    exact ⟨info, by simp [py_catch, span_outputs_body, json_loads_py, hp, catchable],
      fun _ => rfl, fun _ _ _ => rfl, fun k _ => rfl⟩
  | some d =>
    cases d with
    | obj o =>
      rcases ht : (o.lookup "token_ids").getD (.arr []) with _ | b | n | t | xs | es
      · exact ⟨dset info "output_tokens" .null,
          by simp [py_catch, span_outputs_body, json_loads_py, hp, py_getD, ht],
          fun h => by simp [hp] at h,
          fun w hw hne => by cases hw; exact absurd rfl (hne o),
          fun k hk => lookup_dset_ne _ _ _ _ hk⟩
      · exact ⟨dset info "output_tokens" .null,
          by simp [py_catch, span_outputs_body, json_loads_py, hp, py_getD, ht],
          fun h => by simp [hp] at h,
          fun w hw hne => by cases hw; exact absurd rfl (hne o),
          fun k hk => lookup_dset_ne _ _ _ _ hk⟩
      · exact ⟨dset info "output_tokens" .null,
          by simp [py_catch, span_outputs_body, json_loads_py, hp, py_getD, ht],
          fun h => by simp [hp] at h,
          fun w hw hne => by cases hw; exact absurd rfl (hne o),
          fun k hk => lookup_dset_ne _ _ _ _ hk⟩
      · exact ⟨dset info "output_tokens" .null,
          by simp [py_catch, span_outputs_body, json_loads_py, hp, py_getD, ht],
          fun h => by simp [hp] at h,
          fun w hw hne => by cases hw; exact absurd rfl (hne o),
          fun k hk => lookup_dset_ne _ _ _ _ hk⟩
      · exact ⟨dset info "output_tokens" (.num (xs.length : Int)),
          by simp [py_catch, span_outputs_body, json_loads_py, hp, py_getD, ht],
          fun h => by simp [hp] at h,
          fun w hw hne => by cases hw; exact absurd rfl (hne o),
          fun k hk => lookup_dset_ne _ _ _ _ hk⟩
      · exact ⟨dset info "output_tokens" .null,
          by simp [py_catch, span_outputs_body, json_loads_py, hp, py_getD, ht],
          fun h => by simp [hp] at h,
          fun w hw hne => by cases hw; exact absurd rfl (hne o),
          fun k hk => lookup_dset_ne _ _ _ _ hk⟩
    | null =>
      exact ⟨info, by simp [py_catch, span_outputs_body, json_loads_py, hp, py_getD, catchable],
        fun h => by simp [hp] at h, fun _ _ _ => rfl, fun k _ => rfl⟩
    | bool b =>
      exact ⟨info, by simp [py_catch, span_outputs_body, json_loads_py, hp, py_getD, catchable],
        fun h => by simp [hp] at h, fun _ _ _ => rfl, fun k _ => rfl⟩
    | num n =>
      exact ⟨info, by simp [py_catch, span_outputs_body, json_loads_py, hp, py_getD, catchable],
        fun h => by simp [hp] at h, fun _ _ _ => rfl, fun k _ => rfl⟩
    | str t =>
      exact ⟨info, by simp [py_catch, span_outputs_body, json_loads_py, hp, py_getD, catchable],
        fun h => by simp [hp] at h, fun _ _ _ => rfl, fun k _ => rfl⟩
    | arr xs =>
      exact ⟨info, by simp [py_catch, span_outputs_body, json_loads_py, hp, py_getD, catchable],
        fun h => by simp [hp] at h, fun _ _ _ => rfl, fun k _ => rfl⟩

/-- The guarded `spanInputs` step when the payload decodes to a dict
with a dict `kwargs`: gives the exact values of the three derived
fields (`sample_index` follows the `extra_info` shape). -/
theorem span_inputs_step_full (info : Dict) (s : String) (dd kw : Dict)
    (hparse : parseJson s = some (.obj dd))
    (hkw : (dd.lookup "kwargs").getD (.obj []) = .obj kw) :
    ∃ i₁, py_catch info (span_inputs_body info (.str s)) = .ok i₁ ∧
      i₁.lookup "index" = some ((kw.lookup "index").getD .null) ∧
      i₁.lookup "data_source" = some ((kw.lookup "data_source").getD .null) ∧
      i₁.lookup "sample_index" =
        (match (kw.lookup "extra_info").getD (.obj []) with
         | .obj ex => some ((ex.lookup "index").getD .null)
         | _ => info.lookup "sample_index") := by
  have hbody := span_inputs_body_ok info s dd kw hparse hkw
  rcases hx : (kw.lookup "extra_info").getD (.obj []) with _ | b | n | t | xs | ex
  case obj =>
    refine ⟨dset (dset (dset info "index" ((kw.lookup "index").getD .null))
        "data_source" ((kw.lookup "data_source").getD .null))
        "sample_index" ((ex.lookup "index").getD .null),
      by rw [hbody, hx]; rfl, ?_, ?_, ?_⟩
    · rw [lookup_dset_ne _ _ _ _ (by decide), lookup_dset_ne _ _ _ _ (by decide),
        lookup_dset_self]
    · rw [lookup_dset_ne _ _ _ _ (by decide), lookup_dset_self]
    · exact lookup_dset_self _ _ _
  all_goals
    refine ⟨dset (dset info "index" ((kw.lookup "index").getD .null))
        "data_source" ((kw.lookup "data_source").getD .null),
      by rw [hbody, hx]; rfl,
      by rw [lookup_dset_ne _ _ _ _ (by decide), lookup_dset_self],
      by rw [lookup_dset_self],
      by rw [lookup_dset_ne _ _ _ _ (by decide), lookup_dset_ne _ _ _ _ (by decide)]⟩

/-- C7: a non-empty trace record with zero spans (status present as a
dict, spans present as an empty list) summarizes to exactly the header
fields — identifier, status code, span count `0` — with `index`,
`data_source`, `sample_index` and `output_tokens` all absent. -/
theorem c7_zero_spans (td st : Dict) (htd : td ≠ [])
    (hst : td.lookup "status" = some (.obj st))
    (hsp : td.lookup "spans" = some (.arr [])) :
    extract_trace_info (.obj td) =
      .ok [("trace_id", (td.lookup "trace_id").getD .null),
           ("status", (st.lookup "code").getD .null),
           ("spans", .num 0)] ∧
    (([("trace_id", (td.lookup "trace_id").getD .null),
       ("status", (st.lookup "code").getD .null),
       ("spans", JValue.num 0)] : Dict).lookup "index" = none ∧
     ([("trace_id", (td.lookup "trace_id").getD .null),
       ("status", (st.lookup "code").getD .null),
       ("spans", JValue.num 0)] : Dict).lookup "data_source" = none ∧
     ([("trace_id", (td.lookup "trace_id").getD .null),
       ("status", (st.lookup "code").getD .null),
       ("spans", JValue.num 0)] : Dict).lookup "sample_index" = none ∧
     ([("trace_id", (td.lookup "trace_id").getD .null),
       ("status", (st.lookup "code").getD .null),
       ("spans", JValue.num 0)] : Dict).lookup "output_tokens" = none) := by
  constructor
  · simp [extract_trace_info, py_truthy, py_get, py_getD, py_len, hst, hsp, htd]
  · simp [List.lookup]

/-- C7 witness: the zero-span record summarized concretely. -/
theorem c7_zero_spans_witness :
    extract_trace_info (.obj [("trace_id", .str "t"),
      ("status", .obj [("code", .str "OK")]), ("spans", .arr [])]) =
      .ok [("trace_id", .str "t"), ("status", .str "OK"), ("spans", .num 0)] ∧
    (([("trace_id", JValue.str "t"), ("status", JValue.str "OK"),
       ("spans", JValue.num 0)] : Dict).lookup "index" = none ∧
     ([("trace_id", JValue.str "t"), ("status", JValue.str "OK"),
       ("spans", JValue.num 0)] : Dict).lookup "data_source" = none ∧
     ([("trace_id", JValue.str "t"), ("status", JValue.str "OK"),
       ("spans", JValue.num 0)] : Dict).lookup "sample_index" = none ∧
     ([("trace_id", JValue.str "t"), ("status", JValue.str "OK"),
       ("spans", JValue.num 0)] : Dict).lookup "output_tokens" = none) :=
  c7_zero_spans
    [("trace_id", .str "t"), ("status", .obj [("code", .str "OK")]), ("spans", .arr [])]
    [("code", .str "OK")] (List.cons_ne_nil _ _) rfl rfl

/-- C6: when the first span's `spanInputs` attribute decodes to an
object with a nested `kwargs` object, the summary's `index` and
`data_source` are read (with `.get` semantics) from `kwargs`, and
`sample_index` is read from `extra_info`'s `"index"` key exactly when
`extra_info` is itself a mapping — a non-mapping `extra_info` leaves
`sample_index` absent. -/
theorem c6_span_inputs_extraction (td st sp : Dict) (more : List JValue) (attrs : Dict)
    (s : String) (dd kw : Dict)
    (htd : td ≠ [])
    (hst : td.lookup "status" = some (.obj st))
    (hsp : td.lookup "spans" = some (.arr (.obj sp :: more)))
    (hat : sp.lookup "attributes" = some (.obj attrs))
    (hin : attrs.lookup "mlflow.spanInputs" = some (.str s))
    (hparse : parseJson s = some (.obj dd))
    (hkw : dd.lookup "kwargs" = some (.obj kw))
    (houts : attrs.lookup "mlflow.spanOutputs" = none ∨
      ∃ s₂, attrs.lookup "mlflow.spanOutputs" = some (.str s₂)) :
    ∃ i, extract_trace_info (.obj td) = .ok i ∧
      i.lookup "index" = some ((kw.lookup "index").getD .null) ∧
      i.lookup "data_source" = some ((kw.lookup "data_source").getD .null) ∧
      (∀ ex, kw.lookup "extra_info" = some (.obj ex) →
        i.lookup "sample_index" = some ((ex.lookup "index").getD .null)) ∧
      (∀ w, kw.lookup "extra_info" = some w → (∀ ex, w ≠ .obj ex) →
        i.lookup "sample_index" = none) := by
  rw [extract_on_first_span td st sp more attrs htd hst hsp hat]
  have hkw₂ : (dd.lookup "kwargs").getD (.obj []) = .obj kw := by rw [hkw]; rfl
  obtain ⟨i₁, hi₁, hIdx, hDs, hSi⟩ := span_inputs_step_full
    [("trace_id", (td.lookup "trace_id").getD .null),
     ("status", (st.lookup "code").getD .null),
     ("spans", .num ((more.length + 1 : Nat) : Int))] s dd kw hparse hkw₂
  have hSiObj : ∀ ex, kw.lookup "extra_info" = some (.obj ex) →
      i₁.lookup "sample_index" = some ((ex.lookup "index").getD .null) := by
    intro ex hex
    rw [hSi, hex]
    rfl
  have hSiNone : ∀ w, kw.lookup "extra_info" = some w → (∀ ex, w ≠ .obj ex) →
      i₁.lookup "sample_index" = none := by
    intro w hw hne
    rw [hSi, hw]
    cases w with
    | obj ex => exact absurd rfl (hne ex)
    | null => rfl
    | bool b => rfl
    | num n => rfl
    | str t => rfl
    | arr xs => rfl
  rcases houts with hout | ⟨s₂, hout⟩
  · refine ⟨i₁, ?_, hIdx, hDs, hSiObj, hSiNone⟩
    simp only [extract_span_fields, py_contains, py_subscript, hin, hout,
      Option.isSome_some, Option.isSome_none, if_true, if_false, hi₁,
      Bool.false_eq_true, ite_true, ite_false]
  · obtain ⟨i₂, hi₂, _, _, hpres⟩ := span_outputs_step i₁ s₂
    refine ⟨i₂, ?_,
      by rw [hpres _ (by decide), hIdx],
      by rw [hpres _ (by decide), hDs],
      fun ex hex => by rw [hpres _ (by decide), hSiObj ex hex],
      fun w hw hne => by rw [hpres _ (by decide), hSiNone w hw hne]⟩
    simp only [extract_span_fields, py_contains, py_subscript, hin, hout,
      Option.isSome_some, if_true, hi₁, hi₂, ite_true]

/-- C6 witness: the spec's worked example
`{"kwargs": {"index": 5, "data_source": "a", "extra_info": {"index": 9}}}`
gives `index = 5`, `data_source = "a"`, `sample_index = 9`. -/
theorem c6_span_inputs_extraction_witness :
    ∃ i, extract_trace_info (.obj [("trace_id", .str "t"),
        ("status", .obj [("code", .str "OK")]),
        ("spans", .arr [.obj [("name", .str "sp"),
          ("attributes", .obj [("mlflow.spanInputs",
            .str "\x7b\"kwargs\": \x7b\"index\": 5, \"data_source\": \"a\", \"extra_info\": \x7b\"index\": 9\x7d\x7d\x7d")])]])]) =
      .ok i ∧
      i.lookup "index" = some (.num 5) ∧
      i.lookup "data_source" = some (.str "a") ∧
      i.lookup "sample_index" = some (.num 9) := by
  obtain ⟨i, h₁, h₂, h₃, h₄, h₅⟩ := c6_span_inputs_extraction
    [("trace_id", .str "t"), ("status", .obj [("code", .str "OK")]),
     ("spans", .arr [.obj [("name", .str "sp"),
       ("attributes", .obj [("mlflow.spanInputs",
         .str "\x7b\"kwargs\": \x7b\"index\": 5, \"data_source\": \"a\", \"extra_info\": \x7b\"index\": 9\x7d\x7d\x7d")])]])]
    [("code", .str "OK")]
    [("name", .str "sp"),
     ("attributes", .obj [("mlflow.spanInputs",
       .str "\x7b\"kwargs\": \x7b\"index\": 5, \"data_source\": \"a\", \"extra_info\": \x7b\"index\": 9\x7d\x7d\x7d")])]
    []
    [("mlflow.spanInputs",
      .str "\x7b\"kwargs\": \x7b\"index\": 5, \"data_source\": \"a\", \"extra_info\": \x7b\"index\": 9\x7d\x7d\x7d")]
    "\x7b\"kwargs\": \x7b\"index\": 5, \"data_source\": \"a\", \"extra_info\": \x7b\"index\": 9\x7d\x7d\x7d"
    [("kwargs", .obj [("index", .num 5), ("data_source", .str "a"),
      ("extra_info", .obj [("index", .num 9)])])]
    [("index", .num 5), ("data_source", .str "a"), ("extra_info", .obj [("index", .num 9)])]
    (List.cons_ne_nil _ _) rfl rfl rfl rfl rfl rfl (Or.inl rfl)
  exact ⟨i, h₁, h₂, h₃, h₄ [("index", .num 9)] rfl⟩

/-- The guarded `spanOutputs` step when the payload decodes to a dict:
`output_tokens` is always assigned — the list length when `token_ids`
is a list, `None` otherwise. -/
theorem span_outputs_step_full (info : Dict) (s₂ : String) (o : Dict)
    (hparse : parseJson s₂ = some (.obj o)) :
    py_catch info (span_outputs_body info (.str s₂)) =
      .ok (dset info "output_tokens"
        (match (o.lookup "token_ids").getD (.arr []) with
         | .arr xs => .num (xs.length : Int)
         | _ => .null)) := by
  rcases ht : (o.lookup "token_ids").getD (.arr []) with _ | b | n | t | xs | es <;>
    simp [py_catch, span_outputs_body, json_loads_py, hparse, py_getD, ht]

/-- C3 counterexample: with `spanOutputs` decoding to
`{"token_ids": "abc"}` (a string, not a sequence), the summary is not
missing the output-token-count key — the key `output_tokens` is present,
bound to `None` — so "the output-token-count field is absent from the
summary" fails as stated. -/
theorem c3_output_tokens_counterexample :
    extract_trace_info (.obj [("trace_id", .str "t"),
      ("spans", .arr [.obj [("name", .str "sp"),
        ("attributes", .obj [("mlflow.spanOutputs",
          .str "\x7b\"token_ids\": \"abc\"\x7d")])]])]) =
      .ok [("trace_id", .str "t"), ("status", .null), ("spans", .num 1),
           ("output_tokens", .null)] ∧
    ([("trace_id", JValue.str "t"), ("status", JValue.null), ("spans", JValue.num 1),
      ("output_tokens", JValue.null)] : Dict).lookup "output_tokens" = some .null :=
  ⟨rfl, rfl⟩

/-- C3 amended: when the first span's `spanOutputs` attribute decodes to
an object with a `token_ids` field, the summary's `output_tokens` is the
sequence length when `token_ids` is a list, and is present but bound to
`None` (not absent) when it is not a sequence; no type error is raised
either way. -/
theorem c3_output_tokens (td st sp : Dict) (more : List JValue) (attrs : Dict)
    (s₂ : String) (o : Dict)
    (htd : td ≠ [])
    (hst : td.lookup "status" = some (.obj st))
    (hsp : td.lookup "spans" = some (.arr (.obj sp :: more)))
    (hat : sp.lookup "attributes" = some (.obj attrs))
    (hins : attrs.lookup "mlflow.spanInputs" = none ∨
      ∃ s₀, attrs.lookup "mlflow.spanInputs" = some (.str s₀))
    (hout : attrs.lookup "mlflow.spanOutputs" = some (.str s₂))
    (hparse : parseJson s₂ = some (.obj o)) :
    ∃ i, extract_trace_info (.obj td) = .ok i ∧
      (∀ xs, o.lookup "token_ids" = some (.arr xs) →
        i.lookup "output_tokens" = some (.num (xs.length : Int))) ∧
      (∀ w, o.lookup "token_ids" = some w → (∀ xs, w ≠ .arr xs) →
        i.lookup "output_tokens" = some .null) := by
  rw [extract_on_first_span td st sp more attrs htd hst hsp hat]
  have key : ∃ i₁, extract_span_fields
      [("trace_id", (td.lookup "trace_id").getD .null),
       ("status", (st.lookup "code").getD .null),
       ("spans", .num ((more.length + 1 : Nat) : Int))] (.obj attrs) =
      .ok (dset i₁ "output_tokens"
        (match (o.lookup "token_ids").getD (.arr []) with
         | .arr xs => .num (xs.length : Int)
         | _ => .null)) := by
    rcases hins with hin | ⟨s₀, hin⟩
    · exact ⟨[("trace_id", (td.lookup "trace_id").getD .null),
        ("status", (st.lookup "code").getD .null),
        ("spans", .num ((more.length + 1 : Nat) : Int))], by
        simp only [extract_span_fields, py_contains, hin, py_subscript, hout,
          Option.isSome_none, Option.isSome_some, Bool.false_eq_true, ite_false, ite_true,
          span_outputs_step_full _ s₂ o hparse]⟩
    · obtain ⟨i₁, hi₁, _, _⟩ := span_inputs_step
        [("trace_id", (td.lookup "trace_id").getD .null),
         ("status", (st.lookup "code").getD .null),
         ("spans", .num ((more.length + 1 : Nat) : Int))] s₀
      exact ⟨i₁, by
        simp only [extract_span_fields, py_contains, hin, py_subscript, hout,
          Option.isSome_some, ite_true, hi₁,
          span_outputs_step_full i₁ s₂ o hparse]⟩
  obtain ⟨i₁, hkey⟩ := key
  refine ⟨_, hkey, ?_, ?_⟩
  · intro xs hxs
    rw [lookup_dset_self]
    simp only [hxs]
    rfl
  · intro w hw hne
    rw [lookup_dset_self]
    simp only [hw]
    cases w with
    | arr xs => exact absurd rfl (hne xs)
    | null => rfl
    | bool b => rfl
    | num n => rfl
    | str t => rfl
    | obj es => rfl

/-- C3 witness: `{"token_ids": [1,2,3]}` gives `output_tokens = 3`. -/
theorem c3_output_tokens_witness :
    ∃ i, extract_trace_info (.obj [("trace_id", .str "t"),
        ("status", .obj [("code", .str "OK")]),
        ("spans", .arr [.obj [("name", .str "sp"),
          ("attributes", .obj [("mlflow.spanOutputs",
            .str "\x7b\"token_ids\": [1, 2, 3]\x7d")])]])]) = .ok i ∧
      i.lookup "output_tokens" = some (.num 3) := by
  obtain ⟨i, h₁, h₂, h₃⟩ := c3_output_tokens
    [("trace_id", .str "t"), ("status", .obj [("code", .str "OK")]),
     ("spans", .arr [.obj [("name", .str "sp"),
       ("attributes", .obj [("mlflow.spanOutputs",
         .str "\x7b\"token_ids\": [1, 2, 3]\x7d")])]])]
    [("code", .str "OK")]
    [("name", .str "sp"),
     ("attributes", .obj [("mlflow.spanOutputs", .str "\x7b\"token_ids\": [1, 2, 3]\x7d")])]
    []
    [("mlflow.spanOutputs", .str "\x7b\"token_ids\": [1, 2, 3]\x7d")]
    "\x7b\"token_ids\": [1, 2, 3]\x7d"
    [("token_ids", .arr [.num 1, .num 2, .num 3])]
    (List.cons_ne_nil _ _) rfl rfl rfl (Or.inl rfl) rfl rfl
  exact ⟨i, h₁, h₂ [.num 1, .num 2, .num 3] rfl⟩

/-- C2 counterexample: the claim promises extract_trace_info never
raises "for any attribute value", but a non-string `spanInputs`
attribute value (here the number `123`) makes `json.loads` raise
`TypeError`, which the `except (json.JSONDecodeError, AttributeError)`
clause does not catch. -/
theorem c2_swallow_counterexample :
    extract_trace_info (.obj [("trace_id", .str "t"),
      ("spans", .arr [.obj [("name", .str "sp"),
        ("attributes", .obj [("mlflow.spanInputs", .num 123)])]])]) =
      .error .typeError :=
  rfl

/-- C2 amended: for string (or absent) `spanInputs`/`spanOutputs`
attribute values — the only shapes real MLflow traces produce —
summarization never raises, and a decode failure that raises a caught
exception (the attribute missing, the inner JSON malformed, the decoded
payload not an object, or the `spanInputs` payload's `kwargs` slot
holding a non-object) leaves the derived fields absent.  Wrong shapes
that decode to an object without raising instead reach the assignments
and leave the fields present, possibly bound to `None` (a non-list
`token_ids` binds `output_tokens` to `None`; a missing `kwargs` key
defaults to `{}` and binds `index`/`data_source` to `None`).  A
non-string attribute value makes `json.loads` raise `TypeError`, which
`except (json.JSONDecodeError, AttributeError)` does not catch, so
summarization does raise for such values. -/
theorem c2_decode_failures_swallowed (td st sp : Dict) (more : List JValue) (attrs : Dict)
    (htd : td ≠ [])
    (hst : td.lookup "status" = some (.obj st))
    (hsp : td.lookup "spans" = some (.arr (.obj sp :: more)))
    (hat : sp.lookup "attributes" = some (.obj attrs))
    (hinT : ∀ v, attrs.lookup "mlflow.spanInputs" = some v → ∃ s, v = .str s)
    (houtT : ∀ v, attrs.lookup "mlflow.spanOutputs" = some v → ∃ s, v = .str s) :
    ∃ i, extract_trace_info (.obj td) = .ok i ∧
      (attrs.lookup "mlflow.spanInputs" = none →
        i.lookup "index" = none ∧ i.lookup "data_source" = none ∧
        i.lookup "sample_index" = none) ∧
      (∀ s, attrs.lookup "mlflow.spanInputs" = some (.str s) → parseJson s = none →
        i.lookup "index" = none ∧ i.lookup "data_source" = none ∧
        i.lookup "sample_index" = none) ∧
      (∀ s v, attrs.lookup "mlflow.spanInputs" = some (.str s) →
        parseJson s = some v → (∀ o, v ≠ JValue.obj o) →
        i.lookup "index" = none ∧ i.lookup "data_source" = none ∧
        i.lookup "sample_index" = none) ∧
      (∀ s o, attrs.lookup "mlflow.spanInputs" = some (.str s) →
        parseJson s = some (.obj o) →
        (∀ kw, (o.lookup "kwargs").getD (.obj []) ≠ .obj kw) →
        i.lookup "index" = none ∧ i.lookup "data_source" = none ∧
        i.lookup "sample_index" = none) ∧
      (attrs.lookup "mlflow.spanOutputs" = none → i.lookup "output_tokens" = none) ∧
      (∀ s₂, attrs.lookup "mlflow.spanOutputs" = some (.str s₂) → parseJson s₂ = none →
        i.lookup "output_tokens" = none) ∧
      (∀ s₂ w, attrs.lookup "mlflow.spanOutputs" = some (.str s₂) →
        parseJson s₂ = some w → (∀ o, w ≠ JValue.obj o) →
        i.lookup "output_tokens" = none) := by
  rw [extract_on_first_span td st sp more attrs htd hst hsp hat]
  set info0 : Dict :=
    [("trace_id", (td.lookup "trace_id").getD .null),
     ("status", (st.lookup "code").getD .null),
     ("spans", .num ((more.length + 1 : Nat) : Int))] with hinfo0
  have h0idx : info0.lookup "index" = none := rfl
  have h0ds : info0.lookup "data_source" = none := rfl
  have h0si : info0.lookup "sample_index" = none := rfl
  have h0ot : info0.lookup "output_tokens" = none := rfl
  have hstep : ∃ i₁,
      (extract_span_fields info0 (.obj attrs) =
        (match py_contains (.obj attrs) "mlflow.spanOutputs" with
         | .error e => .error e
         | .ok hasOut =>
           if hasOut then
             py_catch i₁
               (match py_subscript (.obj attrs) "mlflow.spanOutputs" with
                | .error e => .error e
                | .ok raw => span_outputs_body i₁ raw)
           else .ok i₁)) ∧
      (attrs.lookup "mlflow.spanInputs" = none → i₁ = info0) ∧
      (∀ s, attrs.lookup "mlflow.spanInputs" = some (.str s) → parseJson s = none →
        i₁ = info0) ∧
      (∀ s v, attrs.lookup "mlflow.spanInputs" = some (.str s) →
        parseJson s = some v → (∀ o, v ≠ JValue.obj o) → i₁ = info0) ∧
      (∀ s o, attrs.lookup "mlflow.spanInputs" = some (.str s) →
        parseJson s = some (.obj o) →
        (∀ kw, (o.lookup "kwargs").getD (.obj []) ≠ .obj kw) → i₁ = info0) ∧
      (∀ k, k ≠ "index" → k ≠ "data_source" → k ≠ "sample_index" →
        i₁.lookup k = info0.lookup k) := by
    cases hin0 : attrs.lookup "mlflow.spanInputs" with
    | none =>
      refine ⟨info0, ?_, ?_, ?_, ?_, ?_, ?_⟩
      · simp only [extract_span_fields, py_contains, hin0, Option.isSome_none,
          Bool.false_eq_true, ite_false]
      · intro _
        rfl
      · intro s hs hp
        cases hs
      · intro s v hs hp hne
        cases hs
      · intro s o hs hp hkb
        cases hs
      · intro k _ _ _
        rfl
    | some v =>
      obtain ⟨s, rfl⟩ := hinT v hin0
      obtain ⟨i₁, hi₁, hnone, hnobj, hkwbad, hpres⟩ := span_inputs_step info0 s
      refine ⟨i₁, ?_, ?_, ?_, ?_, ?_, hpres⟩
      · simp only [extract_span_fields, py_contains, hin0, py_subscript,
          Option.isSome_some, ite_true, hi₁]
      · intro h
        cases h
      · intro s₃ hs₃ hp
        cases hs₃
        exact hnone hp
      · intro s₃ v₃ hs₃ hp hne
        cases hs₃
        exact hnobj v₃ hp hne
      · intro s₃ o₃ hs₃ hp hkb
        cases hs₃
        exact hkwbad o₃ hp hkb
  obtain ⟨i₁, hfields, hIn0, hIn1, hInNobj, hInKw, hPres1⟩ := hstep
  cases hout0 : attrs.lookup "mlflow.spanOutputs" with
  | none =>
    refine ⟨i₁, ?_, ?_, ?_, ?_, ?_, ?_, ?_, ?_⟩
    · rw [hfields]
      simp only [py_contains, hout0, Option.isSome_none, Bool.false_eq_true, ite_false]
    · intro h
      rw [hIn0 h]
      exact ⟨h0idx, h0ds, h0si⟩
    · intro s hs hp
      rw [hIn1 s hs hp]
      exact ⟨h0idx, h0ds, h0si⟩
    · intro s v hs hp hne
      rw [hInNobj s v hs hp hne]
      exact ⟨h0idx, h0ds, h0si⟩
    · intro s o hs hp hkb
      rw [hInKw s o hs hp hkb]
      exact ⟨h0idx, h0ds, h0si⟩
    · intro _
      rw [hPres1 _ (by decide) (by decide) (by decide), h0ot]
    · intro s₂ hs₂ hp₂
      cases hs₂
    · intro s₂ w hs₂ hp hne
      cases hs₂
  | some v =>
    obtain ⟨s₂, rfl⟩ := houtT v hout0
    obtain ⟨i₂, hi₂, hnone₂, hnobj₂, hpres₂⟩ := span_outputs_step i₁ s₂
    refine ⟨i₂, ?_, ?_, ?_, ?_, ?_, ?_, ?_, ?_⟩
    · rw [hfields]
      simp only [py_contains, hout0, py_subscript, Option.isSome_some, ite_true, hi₂]
    · intro h
      refine ⟨?_, ?_, ?_⟩ <;> rw [hpres₂ _ (by decide), hIn0 h] <;> rfl
    · intro s hs hp
      refine ⟨?_, ?_, ?_⟩ <;> rw [hpres₂ _ (by decide), hIn1 s hs hp] <;> rfl
    · intro s v₃ hs hp hne
      refine ⟨?_, ?_, ?_⟩ <;> rw [hpres₂ _ (by decide), hInNobj s v₃ hs hp hne] <;> rfl
    · intro s o₃ hs hp hkb
      refine ⟨?_, ?_, ?_⟩ <;> rw [hpres₂ _ (by decide), hInKw s o₃ hs hp hkb] <;> rfl
    · intro h
      cases h
    · intro s₃ hs₃ hp₃
      cases hs₃
      rw [hnone₂ hp₃, hPres1 _ (by decide) (by decide) (by decide), h0ot]
    · intro s₃ w hs₃ hp hne
      cases hs₃
      rw [hnobj₂ w hp hne, hPres1 _ (by decide) (by decide) (by decide), h0ot]

/-- C2 witness: a `spanInputs` payload that decodes to a non-object
(the JSON string `"abc"`) raises a caught `AttributeError` and is
swallowed, and all derived fields stay absent. -/
theorem c2_decode_failures_swallowed_witness :
    ∃ i, extract_trace_info (.obj [("trace_id", .str "t"),
        ("status", .obj [("code", .str "OK")]),
        ("spans", .arr [.obj [("name", .str "sp"),
          ("attributes", .obj [("mlflow.spanInputs", .str "\"abc\"")])]])]) = .ok i ∧
      i.lookup "index" = none ∧ i.lookup "data_source" = none ∧
      i.lookup "sample_index" = none ∧ i.lookup "output_tokens" = none := by
  obtain ⟨i, hok, hmiss, hmal, hnobj, hkwb, homiss, homal, honobj⟩ :=
    c2_decode_failures_swallowed
      [("trace_id", .str "t"), ("status", .obj [("code", .str "OK")]),
       ("spans", .arr [.obj [("name", .str "sp"),
         ("attributes", .obj [("mlflow.spanInputs", .str "\"abc\"")])]])]
      [("code", .str "OK")]
      [("name", .str "sp"), ("attributes", .obj [("mlflow.spanInputs", .str "\"abc\"")])]
      []
      [("mlflow.spanInputs", .str "\"abc\"")]
      (List.cons_ne_nil _ _) rfl rfl rfl
      (by intro v h; exact ⟨"\"abc\"", by cases h; rfl⟩)
      (by intro v h; cases h)
  obtain ⟨ha, hb, hc⟩ :=
    hnobj "\"abc\"" (.str "abc") rfl rfl (fun o h => JValue.noConfusion h)
  exact ⟨i, hok, ha, hb, hc, homiss rfl⟩

/-- C4: a location with no artifact file loads as the empty record
(not an error); summarizing the empty record gives the empty summary;
such an entry is skipped by the listing loop without affecting the
result or raising; and a location whose artifact exists but holds
malformed JSON makes the load raise a parse error. -/
theorem c4_missing_artifact :
    (∀ name isDir, load_trace ⟨name, isDir, none⟩ = .ok (.obj [])) ∧
    extract_trace_info (.obj []) = .ok [] ∧
    (∀ filters limit d rest acc, d.artifact = none →
      list_go filters limit (d :: rest) acc = list_go filters limit rest acc) ∧
    (∀ d s, d.artifact = some s → parseJson s = none →
      load_trace d = .error .jsonDecodeError) := by
  refine ⟨fun name isDir => rfl, rfl, ?_, ?_⟩
  · intro filters limit d rest acc hart
    by_cases hb : limit_break limit acc.length
    · cases rest with
      | nil => simp [list_go, hb]
      | cons e r => simp [list_go, hb]
    · simp [list_go, hb, load_trace, hart, extract_trace_info, py_truthy]
  · intro d s hart hp
    simp [load_trace, hart, hp]

/-- C4 witness: an artifact-less folder is skipped by the loop, and a
folder holding malformed JSON raises a decode error on load. -/
theorem c4_missing_artifact_witness :
    list_go [] none [⟨"tr-x", true, none⟩] [] = list_go [] none [] [] ∧
    load_trace ⟨"tr-bad", true, some "oops"⟩ = .error .jsonDecodeError :=
  ⟨c4_missing_artifact.2.2.1 [] none ⟨"tr-x", true, none⟩ [] [] rfl,
   c4_missing_artifact.2.2.2 ⟨"tr-bad", true, some "oops"⟩ "oops" rfl rfl⟩

/-- C10: because `if limit and ...` treats `0` as falsy, `limit = 0`
behaves exactly like `limit = None` — all matching summaries are
returned, not zero of them. -/
theorem c10_limit_zero_unlimited (entries : List DirEntry)
    (filters : List (String × String)) :
    list_traces entries filters (some 0) = list_traces entries filters none := by
  unfold list_traces
  suffices h : ∀ fol acc, list_go filters (some 0) fol acc = list_go filters none fol acc from
    h _ []
  intro fol
  induction fol with
  | nil => intro acc; rfl
  | cons d rest ih =>
    intro acc
    cases hload : load_trace d with
    | error e => simp [list_go, limit_break, hload]
    | ok td =>
      cases hex : extract_trace_info td with
      | error e => simp [list_go, limit_break, hload, hex]
      | ok info =>
        cases info with
        | nil => simp [list_go, limit_break, hload, hex, ih]
        | cons e es => simp [list_go, limit_break, hload, hex, ih]

/-! The listing loop: structural lemmas. -/

/-- The accumulation loop only ever appends: its result extends the
accumulator. -/
theorem list_go_acc_prefix (filters : List (String × String)) (limit : Option Int) :
    ∀ fol acc r, list_go filters limit fol acc = .ok r → ∃ t, r = acc ++ t := by
  intro fol
  induction fol with
  | nil =>
    intro acc r h
    cases h
    exact ⟨[], by simp⟩
  | cons d rest ih =>
    intro acc r h
    by_cases hb : limit_break limit acc.length
    · simp only [list_go, hb, ite_true] at h
      cases h
      exact ⟨[], by simp⟩
    · simp only [list_go, hb, ite_false, Bool.false_eq_true] at h
      cases hload : load_trace d with
      | error e => rw [hload] at h; cases h
      | ok td =>
        rw [hload] at h
        simp only at h
        cases hex : extract_trace_info td with
        | error e => rw [hex] at h; cases h
        | ok info =>
          rw [hex] at h
          simp only at h
          cases info with
          | nil => exact ih acc r h
          | cons e es =>
            simp only at h
            split at h
            · obtain ⟨t, rfl⟩ := ih _ _ h
              exact ⟨dset (e :: es) "path" (.str d.name) :: t, by simp⟩
            · split at h
              · obtain ⟨t, rfl⟩ := ih _ _ h
                exact ⟨dset (e :: es) "path" (.str d.name) :: t, by simp⟩
              · exact ih _ _ h

/-- Every summary the loop appends passed the filter check
`str(info.get(k)) == v` for every filter entry (stated for keys other
than `"path"`, which the loop adds after filtering). -/
theorem list_go_filter_only_if (filters : List (String × String)) (limit : Option Int) :
    ∀ fol acc r, list_go filters limit fol acc = .ok r →
      (∀ s, s ∈ acc → ∀ k v, (k, v) ∈ filters → k ≠ "path" →
        py_str ((s.lookup k).getD .null) = v) →
      ∀ s, s ∈ r → ∀ k v, (k, v) ∈ filters → k ≠ "path" →
        py_str ((s.lookup k).getD .null) = v := by
  intro fol
  induction fol with
  | nil =>
    intro acc r h hacc
    cases h
    exact hacc
  | cons d rest ih =>
    intro acc r h hacc
    by_cases hb : limit_break limit acc.length
    · simp only [list_go, hb, ite_true] at h
      cases h
      exact hacc
    · simp only [list_go, hb, ite_false, Bool.false_eq_true] at h
      cases hload : load_trace d with
      | error e => rw [hload] at h; cases h
      | ok td =>
        rw [hload] at h
        simp only at h
        cases hex : extract_trace_info td with
        | error e => rw [hex] at h; cases h
        | ok info =>
          rw [hex] at h
          simp only at h
          cases info with
          | nil => exact ih acc r h hacc
          | cons e es =>
            simp only at h
            by_cases he : filters.isEmpty = true
            · have hfe : filters = [] := List.isEmpty_iff.mp he
              subst hfe
              simp only [List.isEmpty_nil, ite_true] at h
              refine ih _ r h ?_
              intro s hs k v hkv
              cases hkv
            · by_cases hall : filters.all (filter_matches (e :: es)) = true
              · simp only [he, hall, ite_false, ite_true, Bool.false_eq_true] at h
                refine ih _ r h ?_
                intro s hs k v hkv hkp
                rcases List.mem_append.mp hs with hs₁ | hs₂
                · exact hacc s hs₁ k v hkv hkp
                · have hseq : s = dset (e :: es) "path" (.str d.name) :=
                    List.mem_singleton.mp hs₂
                  subst hseq
                  rw [lookup_dset_ne _ _ _ _ hkp]
                  have hm := List.all_eq_true.mp hall (k, v) hkv
                  exact eq_of_beq hm
              · simp only [he, hall, ite_false, Bool.false_eq_true] at h
                exact ih acc r h hacc

/-- C1 amended: every summary included by list-mode filtering satisfies,
for each filter key, `str(field value) = expected` exactly — where an
absent field reads as Python `None`, whose string form is `"None"`.
Consequently an absent field can match a present filter, but only when
the expected string is exactly `"None"`. -/
theorem c1_filter_semantics (entries : List DirEntry) (filters : List (String × String))
    (limit : Option Int) (r : List Dict)
    (h : list_traces entries filters limit = .ok r) :
    ∀ s, s ∈ r → ∀ k v, (k, v) ∈ filters → k ≠ "path" →
      py_str ((s.lookup k).getD .null) = v ∧ (s.lookup k = none → v = "None") := by
  intro s hs k v hkv hkp
  have h₁ := list_go_filter_only_if filters limit (trace_folders entries) [] r h
    (fun s hs => absurd hs (List.not_mem_nil s)) s hs k v hkv hkp
  refine ⟨h₁, fun hnone => ?_⟩
  rw [← h₁, hnone]
  rfl

/-- C1 counterexample: a summary whose `index` field is absent matches
the present filter `index=None`, because `str(info.get("index"))` is
`"None"` — so "a summary in which the filtered field is absent never
matches a present filter" is false as stated. -/
theorem c1_absent_matches_counterexample :
    list_traces [⟨"tr-a", true, some "\x7b\"trace_id\": \"t\", \"spans\": []\x7d"⟩]
      [("index", "None")] none =
      .ok [[("trace_id", .str "t"), ("status", .null), ("spans", .num 0),
            ("path", .str "tr-a")]] ∧
    ([("trace_id", JValue.str "t"), ("status", JValue.null), ("spans", JValue.num 0),
      ("path", JValue.str "tr-a")] : Dict).lookup "index" = none :=
  ⟨rfl, rfl⟩

/-- C1 witness: the integer span count `2` matches the filter string
`"2"` in an included summary. -/
theorem c1_filter_semantics_witness :
    py_str ((([("trace_id", JValue.str "t"), ("status", JValue.null),
        ("spans", JValue.num 2), ("path", JValue.str "tr-a")] : Dict).lookup "spans").getD
        .null) = "2" ∧
    (([("trace_id", JValue.str "t"), ("status", JValue.null), ("spans", JValue.num 2),
        ("path", JValue.str "tr-a")] : Dict).lookup "spans" = none → "2" = "None") :=
  c1_filter_semantics
    [⟨"tr-a", true,
      some "\x7b\"trace_id\": \"t\", \"spans\": [\x7b\"name\": \"x\"\x7d, \x7b\"name\": \"y\"\x7d]\x7d"⟩]
    [("spans", "2")] none
    [[("trace_id", .str "t"), ("status", .null), ("spans", .num 2), ("path", .str "tr-a")]]
    rfl
    [("trace_id", .str "t"), ("status", .null), ("spans", .num 2), ("path", .str "tr-a")]
    (List.mem_singleton.mpr rfl) "spans" "2" (List.mem_singleton.mpr rfl) (by decide)

/-! String order lemmas for the sort. -/

/-- `charListLe` is total. -/
theorem charListLe_total : ∀ as bs : List Char,
    charListLe as bs = true ∨ charListLe bs as = true := by
  intro as
  induction as with
  | nil => intro bs; left; rfl
  | cons a as ih =>
    intro bs
    cases bs with
    | nil => right; rfl
    | cons b bs =>
      rcases lt_trichotomy a b with h | h | h
      · left; simp [charListLe, h]
      · subst h
        rcases ih bs with h₂ | h₂
        · left; simp [charListLe, lt_irrefl, h₂]
        · right; simp [charListLe, lt_irrefl, h₂]
      · right; simp [charListLe, h]

/-- `charListLe` is transitive. -/
theorem charListLe_trans : ∀ as bs cs : List Char, charListLe as bs = true →
    charListLe bs cs = true → charListLe as cs = true := by
  intro as
  induction as with
  | nil => intro bs cs _ _; rfl
  | cons a as ih =>
    intro bs cs h₁ h₂
    cases bs with
    | nil => simp [charListLe] at h₁
    | cons b bs =>
      cases cs with
      | nil => simp [charListLe] at h₂
      | cons c cs =>
        rcases lt_trichotomy a b with hab | hab | hab
        · rcases lt_trichotomy b c with hbc | hbc | hbc
          · simp [charListLe, lt_trans hab hbc]
          · subst hbc; simp [charListLe, hab]
          · simp [charListLe, lt_asymm hbc, hbc] at h₂
        · subst hab
          rcases lt_trichotomy a c with hbc | hbc | hbc
          · simp [charListLe, hbc]
          · subst hbc
            simp only [charListLe, lt_irrefl, ite_false, if_neg (lt_irrefl a)] at h₁ h₂ ⊢
            exact ih bs cs h₁ h₂
          · simp [charListLe, lt_asymm hbc, hbc] at h₂
        · simp [charListLe, lt_asymm hab, hab] at h₁

/-- The result's `"path"` names are drawn, in order, from the scanned
folder names. -/
theorem list_go_path_sublist (filters : List (String × String)) (limit : Option Int) :
    ∀ fol acc r, list_go filters limit fol acc = .ok r →
      ∃ t, r = acc ++ t ∧ (t.map path_name).Sublist (fol.map DirEntry.name) := by
  intro fol
  induction fol with
  | nil =>
    intro acc r h
    cases h
    exact ⟨[], by simp, List.nil_sublist _⟩
  | cons d rest ih =>
    intro acc r h
    by_cases hb : limit_break limit acc.length
    · simp only [list_go, hb, ite_true] at h
      cases h
      exact ⟨[], by simp, List.nil_sublist _⟩
    · simp only [list_go, hb, ite_false, Bool.false_eq_true] at h
      cases hload : load_trace d with
      | error e => rw [hload] at h; cases h
      | ok td =>
        rw [hload] at h
        simp only at h
        cases hex : extract_trace_info td with
        | error e => rw [hex] at h; cases h
        | ok info =>
          rw [hex] at h
          simp only at h
          cases info with
          | nil =>
            obtain ⟨t, rfl, hsub⟩ := ih acc r h
            exact ⟨t, rfl, hsub.cons _⟩
          | cons e es =>
            simp only at h
            split at h
            · obtain ⟨t, rfl, hsub⟩ := ih _ _ h
              refine ⟨dset (e :: es) "path" (.str d.name) :: t, by simp, ?_⟩
              have hpn : path_name (dset (e :: es) "path" (.str d.name)) = d.name := by
                rw [path_name, lookup_dset_self]
                rfl
              simp only [List.map_cons, hpn]
              exact hsub.cons₂ _
            · split at h
              · obtain ⟨t, rfl, hsub⟩ := ih _ _ h
                refine ⟨dset (e :: es) "path" (.str d.name) :: t, by simp, ?_⟩
                have hpn : path_name (dset (e :: es) "path" (.str d.name)) = d.name := by
                  rw [path_name, lookup_dset_self]
                  rfl
                simp only [List.map_cons, hpn]
                exact hsub.cons₂ _
              · obtain ⟨t, rfl, hsub⟩ := ih _ _ h
                exact ⟨t, rfl, hsub.cons _⟩

/-- C8: listing considers exactly the subdirectories whose name begins
with `"tr-"` (other entries do not affect the result), and the returned
summaries come ordered by location name ascending (Python string
order). -/
theorem c8_prefix_and_sorted (entries : List DirEntry) (filters : List (String × String))
    (limit : Option Int) :
    (list_traces entries filters limit =
      list_traces (entries.filter (fun d => d.isDir && py_startswith d.name "tr-"))
        filters limit) ∧
    (∀ r, list_traces entries filters limit = .ok r →
      r.Pairwise (fun a b => py_str_le (path_name a) (path_name b) = true)) := by
  constructor
  · simp [list_traces, trace_folders, List.filter_filter]
  · intro r h
    obtain ⟨t, ht, hsub⟩ := list_go_path_sublist filters limit (trace_folders entries) [] r h
    rw [ht, List.nil_append]
    have hsorted : List.Pairwise nameLe (trace_folders entries) :=
      @List.sorted_insertionSort DirEntry nameLe _
        ⟨fun a b => charListLe_total a.name.data b.name.data⟩
        ⟨fun a b c => charListLe_trans a.name.data b.name.data c.name.data⟩ _
    have hmap : ((trace_folders entries).map DirEntry.name).Pairwise
        (fun a b => py_str_le a b = true) :=
      List.pairwise_map.mpr hsorted
    have hpt : (t.map path_name).Pairwise (fun a b => py_str_le a b = true) :=
      List.Pairwise.sublist hsub hmap
    exact List.pairwise_map.mp hpt

/-- C8 witness: a non-`tr-` entry is ignored and the two `tr-` results
come back in ascending name order. -/
theorem c8_prefix_and_sorted_witness :
    (list_traces [⟨"tr-b", true, some "\x7b\"trace_id\": \"t\"\x7d"⟩,
        ⟨"other", true, some "\x7b\"trace_id\": \"t\"\x7d"⟩,
        ⟨"tr-a", true, some "\x7b\"trace_id\": \"t\"\x7d"⟩] [] none =
      list_traces ([⟨"tr-b", true, some "\x7b\"trace_id\": \"t\"\x7d"⟩,
        ⟨"other", true, some "\x7b\"trace_id\": \"t\"\x7d"⟩,
        ⟨"tr-a", true, some "\x7b\"trace_id\": \"t\"\x7d"⟩].filter
          (fun d => d.isDir && py_startswith d.name "tr-")) [] none) ∧
    List.Pairwise (fun a b => py_str_le (path_name a) (path_name b) = true)
      [[("trace_id", JValue.str "t"), ("status", JValue.null), ("spans", JValue.num 0),
        ("path", JValue.str "tr-a")],
       [("trace_id", JValue.str "t"), ("status", JValue.null), ("spans", JValue.num 0),
        ("path", JValue.str "tr-b")]] :=
  ⟨(c8_prefix_and_sorted [⟨"tr-b", true, some "\x7b\"trace_id\": \"t\"\x7d"⟩,
        ⟨"other", true, some "\x7b\"trace_id\": \"t\"\x7d"⟩,
        ⟨"tr-a", true, some "\x7b\"trace_id\": \"t\"\x7d"⟩] [] none).1,
   (c8_prefix_and_sorted [⟨"tr-b", true, some "\x7b\"trace_id\": \"t\"\x7d"⟩,
        ⟨"other", true, some "\x7b\"trace_id\": \"t\"\x7d"⟩,
        ⟨"tr-a", true, some "\x7b\"trace_id\": \"t\"\x7d"⟩] [] none).2 _ rfl⟩

/-- With a positive limit, the loop returns the `max acc n`-prefix of
what the unlimited loop returns from the same state. -/
theorem list_go_limit_take (filters : List (String × String)) (n : Int) (hn : 0 < n) :
    ∀ fol acc all, list_go filters none fol acc = .ok all →
      list_go filters (some n) fol acc = .ok (all.take (max acc.length n.toNat)) := by
  intro fol
  induction fol with
  | nil =>
    intro acc all h
    cases h
    rw [list_go, List.take_of_length_le (le_max_left _ _)]
  | cons d rest ih =>
    intro acc all h
    simp only [list_go, limit_break, Bool.false_eq_true, ite_false] at h
    by_cases hge : (acc.length : Int) ≥ n
    · have hbreak : limit_break (some n) acc.length = true := by
        have hn0 : n ≠ 0 := by omega
        simp [limit_break, hn0, hge]
      rw [list_go, if_pos hbreak]
      obtain ⟨t, rfl⟩ := list_go_acc_prefix filters none (d :: rest) acc all
        (by simp only [list_go, limit_break, Bool.false_eq_true, ite_false]; exact h)
      have hmax : max acc.length n.toNat = acc.length := by omega
      rw [hmax, List.take_left]
    · have hbreak : limit_break (some n) acc.length = false := by
        have hn0 : n ≠ 0 := by omega
        simp [limit_break, hn0]
        omega
      have hlt : acc.length < n.toNat := by omega
      rw [list_go, if_neg (by simp [hbreak])]
      cases hload : load_trace d with
      | error e => rw [hload] at h; cases h
      | ok td =>
        rw [hload] at h
        simp only at h ⊢
        cases hex : extract_trace_info td with
        | error e => rw [hex] at h; cases h
        | ok info =>
          rw [hex] at h
          simp only at h ⊢
          cases info with
          | nil => exact ih acc all h
          | cons e es =>
            simp only at h ⊢
            split at h <;> split
            · have hres := ih _ all h
              rw [hres]
              have harg : max (acc ++ [dset (e :: es) "path" (.str d.name)]).length n.toNat =
                  max acc.length n.toNat := by
                simp only [List.length_append, List.length_cons, List.length_nil]
                omega
              rw [harg]
              rfl
            · exact absurd ‹filters.isEmpty = true› ‹¬filters.isEmpty = true›
            · exact absurd ‹filters.isEmpty = true› ‹¬filters.isEmpty = true›
            · split at h <;> split
              · have hres := ih _ all h
                rw [hres]
                have harg : max (acc ++ [dset (e :: es) "path" (.str d.name)]).length n.toNat =
                    max acc.length n.toNat := by
                  simp only [List.length_append, List.length_cons, List.length_nil]
                  omega
                rw [harg]
              · exact absurd ‹filters.all (filter_matches (e :: es)) = true›
                  ‹¬filters.all (filter_matches (e :: es)) = true›
              · exact absurd ‹filters.all (filter_matches (e :: es)) = true›
                  ‹¬filters.all (filter_matches (e :: es)) = true›
              · exact ih acc all h

/-- When the unlimited loop succeeds, every scanned folder whose trace
loads, summarizes non-empty and passes the filters contributes its
summary to the result. -/
theorem list_go_unlimited_complete (filters : List (String × String)) :
    ∀ fol acc all, list_go filters none fol acc = .ok all →
      ∀ d, d ∈ fol → ∀ td info, load_trace d = .ok td → extract_trace_info td = .ok info →
        info ≠ [] → (filters.isEmpty = true ∨ filters.all (filter_matches info) = true) →
        dset info "path" (.str d.name) ∈ all := by
  intro fol
  induction fol with
  | nil =>
    intro acc all h d hd
    cases hd
  | cons d₀ rest ih =>
    intro acc all h d hd td info hload hex hne hkeep
    simp only [list_go, limit_break, Bool.false_eq_true, ite_false] at h
    rcases List.mem_cons.mp hd with rfl | hd₂
    · rw [hload] at h
      try simp only at h
      rw [hex] at h
      try simp only at h
      cases info with
      | nil => exact absurd rfl hne
      | cons e es =>
        try simp only at h
        split at h
        · obtain ⟨t, rfl⟩ := list_go_acc_prefix filters none rest _ all h
          simp
        · split at h
          · obtain ⟨t, rfl⟩ := list_go_acc_prefix filters none rest _ all h
            simp
          · rcases hkeep with hk | hk
            · exact absurd hk ‹¬filters.isEmpty = true›
            · exact absurd hk ‹¬filters.all (filter_matches (e :: es)) = true›
    · cases hload₀ : load_trace d₀ with
      | error e => rw [hload₀] at h; cases h
      | ok td₀ =>
        rw [hload₀] at h
        try simp only at h
        cases hex₀ : extract_trace_info td₀ with
        | error e => rw [hex₀] at h; cases h
        | ok info₀ =>
          rw [hex₀] at h
          try simp only at h
          cases info₀ with
          | nil => exact ih acc all h d hd₂ td info hload hex hne hkeep
          | cons e₀ es₀ =>
            try simp only at h
            split at h
            · exact ih _ all h d hd₂ td info hload hex hne hkeep
            · split at h
              · exact ih _ all h d hd₂ td info hload hex hne hkeep
              · exact ih acc all h d hd₂ td info hload hex hne hkeep

/-- C5: with a positive limit `n`, listing returns exactly the first
`n` summaries of the unlimited run (early termination), and with
`limit = None` every matching candidate's summary is in the result. -/
theorem c5_limit_truncates (entries : List DirEntry) (filters : List (String × String))
    (n : Int) (hn : 0 < n) (all : List Dict)
    (hall : list_traces entries filters none = .ok all) :
    list_traces entries filters (some n) = .ok (all.take n.toNat) ∧
    (∀ d, d ∈ trace_folders entries → ∀ td info,
      load_trace d = .ok td → extract_trace_info td = .ok info → info ≠ [] →
      (filters.isEmpty = true ∨ filters.all (filter_matches info) = true) →
      dset info "path" (.str d.name) ∈ all) := by
  constructor
  · have hres := list_go_limit_take filters n hn (trace_folders entries) [] all hall
    simpa [list_traces, Nat.zero_max] using hres
  · intro d hd td info h₁ h₂ h₃ h₄
    exact list_go_unlimited_complete filters (trace_folders entries) [] all hall
      d hd td info h₁ h₂ h₃ h₄

/-- C5 witness: `limit = 2` against five matching candidates returns
exactly the first two, in sorted order. -/
theorem c5_limit_truncates_witness :
    list_traces [⟨"tr-1", true, some "\x7b\"trace_id\": \"t\"\x7d"⟩,
      ⟨"tr-2", true, some "\x7b\"trace_id\": \"t\"\x7d"⟩,
      ⟨"tr-3", true, some "\x7b\"trace_id\": \"t\"\x7d"⟩,
      ⟨"tr-4", true, some "\x7b\"trace_id\": \"t\"\x7d"⟩,
      ⟨"tr-5", true, some "\x7b\"trace_id\": \"t\"\x7d"⟩] [] (some 2) =
      .ok [[("trace_id", JValue.str "t"), ("status", JValue.null), ("spans", JValue.num 0),
            ("path", JValue.str "tr-1")],
           [("trace_id", JValue.str "t"), ("status", JValue.null), ("spans", JValue.num 0),
            ("path", JValue.str "tr-2")]] :=
  (c5_limit_truncates [⟨"tr-1", true, some "\x7b\"trace_id\": \"t\"\x7d"⟩,
      ⟨"tr-2", true, some "\x7b\"trace_id\": \"t\"\x7d"⟩,
      ⟨"tr-3", true, some "\x7b\"trace_id\": \"t\"\x7d"⟩,
      ⟨"tr-4", true, some "\x7b\"trace_id\": \"t\"\x7d"⟩,
      ⟨"tr-5", true, some "\x7b\"trace_id\": \"t\"\x7d"⟩] [] 2 (by decide)
    [[("trace_id", JValue.str "t"), ("status", JValue.null), ("spans", JValue.num 0),
      ("path", JValue.str "tr-1")],
     [("trace_id", JValue.str "t"), ("status", JValue.null), ("spans", JValue.num 0),
      ("path", JValue.str "tr-2")],
     [("trace_id", JValue.str "t"), ("status", JValue.null), ("spans", JValue.num 0),
      ("path", JValue.str "tr-3")],
     [("trace_id", JValue.str "t"), ("status", JValue.null), ("spans", JValue.num 0),
      ("path", JValue.str "tr-4")],
     [("trace_id", JValue.str "t"), ("status", JValue.null), ("spans", JValue.num 0),
      ("path", JValue.str "tr-5")]] rfl).1

/-- C9: for a span with a name and a dict attribute mapping, detail
rendering always succeeds (the bare `except: pass` swallows every
failure), and whenever decoded inputs or outputs render to more than
500 characters, the emitted line holds exactly the first 500 characters
of the rendering followed by the `"..."` marker. -/
theorem c9_detail_truncation (i : Nat) (nm : JValue) (attrs : Dict) :
    ∃ lines, span_detail_lines i (.obj [("name", nm), ("attributes", .obj attrs)]) =
        .ok lines ∧
      (∀ s v, attrs.lookup "mlflow.spanInputs" = some (.str s) → parseJson s = some v →
        500 < (json_dumps v).length →
        ("      Inputs: " ++ py_slice (json_dumps v) 500 ++ "...") ∈ lines ∧
        (py_slice (json_dumps v) 500).length = 500) ∧
      (∀ s v, attrs.lookup "mlflow.spanOutputs" = some (.str s) → parseJson s = some v →
        500 < (json_dumps v).length →
        ("      Outputs: " ++ py_slice (json_dumps v) 500 ++ "...") ∈ lines ∧
        (py_slice (json_dumps v) 500).length = 500) := by
  simp only [span_detail_lines, py_get, py_getD, py_contains]
  refine ⟨_, rfl, ?_, ?_⟩
  · intro s v hs hp hlen
    have hattr : (List.lookup "attributes"
        ([("name", nm), ("attributes", JValue.obj attrs)] : Dict)).getD (.obj []) =
        .obj attrs := rfl
    have hsub : py_subscript (.obj attrs) "mlflow.spanInputs" = .ok (.str s) := by
      simp [py_subscript, hs]
    have hld : json_loads_py (.str s) = .ok v := by simp [json_loads_py, hp]
    constructor
    · simp only [hs, Option.isSome_some, ite_true, hattr, hsub, hld]
      exact List.mem_cons_of_mem _ (List.mem_append_left _ (List.mem_singleton.mpr rfl))
    · have hl : (py_slice (json_dumps v) 500).length =
          ((json_dumps v).data.take 500).length := rfl
      have hd : (json_dumps v).length = (json_dumps v).data.length := rfl
      rw [hl, List.length_take]
      omega
  · intro s v hs hp hlen
    have hattr : (List.lookup "attributes"
        ([("name", nm), ("attributes", JValue.obj attrs)] : Dict)).getD (.obj []) =
        .obj attrs := rfl
    have hsub : py_subscript (.obj attrs) "mlflow.spanOutputs" = .ok (.str s) := by
      simp [py_subscript, hs]
    have hld : json_loads_py (.str s) = .ok v := by simp [json_loads_py, hp]
    constructor
    · simp only [hs, Option.isSome_some, ite_true, hattr, hsub, hld]
      exact List.mem_cons_of_mem _ (List.mem_append_right _ (List.mem_singleton.mpr rfl))
    · have hl : (py_slice (json_dumps v) 500).length =
          ((json_dumps v).data.take 500).length := rfl
      have hd : (json_dumps v).length = (json_dumps v).data.length := rfl
      rw [hl, List.length_take]
      omega

set_option maxRecDepth 10000 in
/-- C9 witness: a 510-character string payload renders to 512
characters and the detail line keeps exactly the first 500 plus the
marker. -/
theorem c9_detail_truncation_witness :
    ∃ lines, span_detail_lines 1 (.obj [("name", .str "sp"),
        ("attributes", .obj [("mlflow.spanInputs",
          .str ("\"" ++ String.mk (List.replicate 510 'a') ++ "\""))])]) = .ok lines ∧
      ("      Inputs: " ++
        py_slice (json_dumps (.str (String.mk (List.replicate 510 'a')))) 500 ++ "...") ∈
        lines ∧
      (py_slice (json_dumps (.str (String.mk (List.replicate 510 'a')))) 500).length =
        500 := by
  obtain ⟨lines, hl, hin, _⟩ := c9_detail_truncation 1 (.str "sp")
    [("mlflow.spanInputs", .str ("\"" ++ String.mk (List.replicate 510 'a') ++ "\""))]
  have hjd : json_dumps (.str (String.mk (List.replicate 510 'a'))) =
      dumpsVal 1 0 (.str (String.mk (List.replicate 510 'a'))) := by
    rw [json_dumps]
    simp [jdepth]
  have hlen : 500 < (json_dumps (.str (String.mk (List.replicate 510 'a')))).length := by
    rw [hjd]
    decide
  obtain ⟨hmem, hlen500⟩ := hin ("\"" ++ String.mk (List.replicate 510 'a') ++ "\"")
    (.str (String.mk (List.replicate 510 'a'))) rfl rfl hlen
  exact ⟨lines, hl, hmem, hlen500⟩
